import Mathlib

/-!
Verification development for the IP-API backend.

This file gives a shallow embedding, in Lean, of the parts of the backend
that the specification talks about:

* the IP-address / CIDR parsing used by `maxmind/reader.rs` (which delegates
  to the Rust standard library `IpAddr` parser and the `ipnet` crate; both
  are embedded here from their documented grammar, since their behaviour is
  what the reader code observes),
* the reserved-address classification `is_reserved_ip`,
* the `MaxmindReader` lookup pipeline (`lookup`, `lookup_ip`, `lookup_cidr`)
  with the geo databases abstracted as lookup oracles,
* the generic size-accounted TTL key-value store `utils/kv_store.rs`,
* the request handler `IpApiHandler::get_ip_info` from `api/ip_api.rs`,
  with the network providers (WHOIS, bgp.tools, BGP REST, RPKI) abstracted
  as deterministic oracles and each external invocation recorded in a trace.

Machine integers (`u8`, `u16`, `u32`, `usize`) are modelled as `Nat`; the
only subtraction the store performs (`current_size_bytes - old_size`) never
underflows in states satisfying the size invariant, so truncated `Nat`
subtraction agrees with the machine arithmetic there.  Wall-clock time
(`SystemTime::now` seconds) is passed explicitly as a `now : Nat` argument.
-/

/-! ## Character helpers for the address parsers -/

def isHexDigitChar (c : Char) : Bool :=
  c.isDigit || ('a' ≤ c && c ≤ 'f') || ('A' ≤ c && c ≤ 'F')

def hexVal (c : Char) : Nat :=
  if c.isDigit then c.toNat - '0'.toNat
  else if 'a' ≤ c && c ≤ 'f' then c.toNat - 'a'.toNat + 10
  else c.toNat - 'A'.toNat + 10

/-- Value of a digit string in base `b` (most significant first). -/
def digitsToNat (b : Nat) (ds : List Char) : Nat :=
  ds.foldl (fun a c => a * b + hexVal c) 0

/-! ## The Rust `std::net` address parser, embedded

`Ipv4Addr`/`Ipv6Addr`/`IpAddr` string parsing as implemented by
`core::net::parser`: an IPv4 address is four decimal octets (at most three
digits each, no leading zeros, value at most 255) separated by `.`;
an IPv6 address is up to eight 16-bit hexadecimal groups (at most four hex
digits each) separated by `:`, with at most one `::` eliding a run of zero
groups and an optional embedded IPv4 address in the last two group slots.
Each parser consumes a prefix of the character list and returns the rest;
the top-level entry points additionally require end of input. -/

/-- Rust `read_number(10, Some(3), allow_zero_prefix = false)` specialised
to `u8`: the octet grammar of the IPv4 parser. -/
def read_ipv4_octet (cs : List Char) : Option (Nat × List Char) :=
  let ds := cs.takeWhile Char.isDigit
  let rest := cs.dropWhile Char.isDigit
  if ds.length = 0 then none
  else if 3 < ds.length then none
  else if ds.head? = some '0' ∧ 1 < ds.length then none
  else if 255 < digitsToNat 10 ds then none
  else some (digitsToNat 10 ds, rest)

def expectChar (c : Char) : List Char → Option (List Char)
  | x :: rest => if x = c then some rest else none
  | [] => none

/-- Rust `read_ipv4_addr`: four octets separated by `.`. -/
def read_ipv4_addr (cs : List Char) : Option ((Nat × Nat × Nat × Nat) × List Char) :=
  match read_ipv4_octet cs with
  | none => none
  | some (a, r1) =>
    match expectChar '.' r1 with
    | none => none
    | some r2 =>
      match read_ipv4_octet r2 with
      | none => none
      | some (b, r3) =>
        match expectChar '.' r3 with
        | none => none
        | some r4 =>
          match read_ipv4_octet r4 with
          | none => none
          | some (c, r5) =>
            match expectChar '.' r5 with
            | none => none
            | some r6 =>
              match read_ipv4_octet r6 with
              | none => none
              | some (d, r7) => some ((a, b, c, d), r7)

/-- Rust `read_number(16, Some(4), allow_zero_prefix = true)`: one 16-bit
hexadecimal group of the IPv6 grammar. -/
def read_ipv6_group (cs : List Char) : Option (Nat × List Char) :=
  let ds := cs.takeWhile isHexDigitChar
  let rest := cs.dropWhile isHexDigitChar
  if ds.length = 0 then none
  else if 4 < ds.length then none
  else some (digitsToNat 16 ds, rest)

/-- Rust `read_separator`: at every group slot but the first, a `:` must
precede the inner parser. -/
def read_separator {A : Type} (first : Bool)
    (inner : List Char → Option (A × List Char)) (cs : List Char) :
    Option (A × List Char) :=
  if first then inner cs
  else
    match cs with
    | ':' :: rest => inner rest
    | _ => none

/-- Rust `read_groups`: reads IPv6 groups separated by `:` into at most
`rem` remaining slots; `first` is true at the first slot (no separator).
Returns the groups read, the unconsumed rest, and whether the run ended
with an embedded IPv4 address (which fills two slots and is only tried
when at least two slots remain). -/
def read_groups : Nat → Bool → List Char → (List Nat × List Char × Bool)
  | 0, _, cs => ([], cs, false)
  | rem + 1, first, cs =>
    match (if 1 ≤ rem then read_separator first read_ipv4_addr cs else none) with
    | some ((a, b, c, d), rest) => ([a * 256 + b, c * 256 + d], rest, true)
    | none =>
      match read_separator first read_ipv6_group cs with
      | some (g, rest) =>
        let res := read_groups rem false rest
        (g :: res.1, res.2.1, res.2.2)
      | none => ([], cs, false)

/-- Rust `read_ipv6_addr`: head groups, then an optional `::` followed by
tail groups; the elided middle is zero groups. Produces the eight 16-bit
segments. -/
def read_ipv6_addr (cs : List Char) : Option (List Nat × List Char) :=
  let hres := read_groups 8 true cs
  let head := hres.1
  if head.length = 8 then some (head, hres.2.1)
  else if hres.2.2 then none
  else
    match hres.2.1 with
    | ':' :: ':' :: rest2 =>
      let tres := read_groups (8 - (head.length + 1)) true rest2
      some (head ++ List.replicate (8 - head.length - tres.1.length) 0 ++ tres.1,
        tres.2.1)
    | _ => none

/-- `std::net::IpAddr`: a parsed IP address. IPv6 segments are the eight
16-bit groups, most significant first. -/
inductive IpAddr : Type
  | v4 (a b c d : Nat)
  | v6 (segs : List Nat)
  deriving DecidableEq, Repr

/-- Rust `read_ip_addr`: IPv4 first, IPv6 on failure. -/
def read_ip_addr (cs : List Char) : Option (IpAddr × List Char) :=
  match read_ipv4_addr cs with
  | some ((a, b, c, d), rest) => some (.v4 a b c d, rest)
  | none =>
    match read_ipv6_addr cs with
    | some (segs, rest) => some (.v6 segs, rest)
    | none => none

/-- `IpAddr::from_str`: the whole string must be consumed. -/
def parse_ip_addr (s : String) : Option IpAddr :=
  match read_ip_addr s.toList with
  | some (a, []) => some a
  | _ => none

example : parse_ip_addr "127.0.0.1" = some (.v4 127 0 0 1) := by decide
example : parse_ip_addr "10.0.0.5" = some (.v4 10 0 0 5) := by decide
example : parse_ip_addr "127.0.0.0/8" = none := by decide
example : parse_ip_addr "256.0.0.1" = none := by decide
example : parse_ip_addr "1.2.3" = none := by decide
example : parse_ip_addr "01.2.3.4" = none := by decide
example : parse_ip_addr "::1" = some (.v6 [0, 0, 0, 0, 0, 0, 0, 1]) := by decide
example : parse_ip_addr "1:2::3" = some (.v6 [1, 2, 0, 0, 0, 0, 0, 3]) := by decide
example : parse_ip_addr "::ffff:1.2.3.4" =
    some (.v6 [0, 0, 0, 0, 0, 0xffff, 0x0102, 0x0304]) := by decide
example : parse_ip_addr "fe80::1" = some (.v6 [0xfe80, 0, 0, 0, 0, 0, 0, 1]) := by decide
example : parse_ip_addr "1:2:3:4:5:6:7:8" = some (.v6 [1, 2, 3, 4, 5, 6, 7, 8]) := by decide
example : parse_ip_addr "1:2:3:4:5:6:7:8:9" = none := by decide
example : parse_ip_addr "1::2::3" = none := by decide

/-! ## Reserved-address classification (`maxmind/reader.rs::is_reserved_ip`)

The per-family predicates are the Rust standard library `Ipv4Addr` /
`Ipv6Addr` classification methods the source calls. -/

def ipv4_is_loopback (a _b _c _d : Nat) : Bool := a = 127

def ipv4_is_private (a b _c _d : Nat) : Bool :=
  a = 10 || (a = 172 && 16 ≤ b && b ≤ 31) || (a = 192 && b = 168)

def ipv4_is_link_local (a b _c _d : Nat) : Bool := a = 169 && b = 254

def ipv4_is_broadcast (a b c d : Nat) : Bool :=
  a = 255 && b = 255 && c = 255 && d = 255

def ipv4_is_documentation (a b c _d : Nat) : Bool :=
  (a = 192 && b = 0 && c = 2) || (a = 198 && b = 51 && c = 100) ||
    (a = 203 && b = 0 && c = 113)

/-- Segment `i` (0-based, most significant first) of an IPv6 segment list. -/
def seg (segs : List Nat) (i : Nat) : Nat := segs.getD i 0

def ipv6_is_loopback (segs : List Nat) : Bool :=
  seg segs 0 = 0 && seg segs 1 = 0 && seg segs 2 = 0 && seg segs 3 = 0 &&
    seg segs 4 = 0 && seg segs 5 = 0 && seg segs 6 = 0 && seg segs 7 = 1

def ipv6_is_unspecified (segs : List Nat) : Bool :=
  seg segs 0 = 0 && seg segs 1 = 0 && seg segs 2 = 0 && seg segs 3 = 0 &&
    seg segs 4 = 0 && seg segs 5 = 0 && seg segs 6 = 0 && seg segs 7 = 0

def ipv6_is_unique_local (segs : List Nat) : Bool :=
  seg segs 0 &&& 0xfe00 = 0xfc00

def ipv6_is_multicast (segs : List Nat) : Bool :=
  seg segs 0 &&& 0xff00 = 0xff00

def ipv6_is_unicast_link_local (segs : List Nat) : Bool :=
  seg segs 0 &&& 0xffc0 = 0xfe80

/-- `is_reserved_ip` from `maxmind/reader.rs`: parse as a plain address;
classify per family; unparsable input is not reserved. -/
def is_reserved_ip (ip : String) : Bool :=
  match parse_ip_addr ip with
  | some (.v4 a b c d) =>
    ipv4_is_loopback a b c d || ipv4_is_private a b c d ||
      ipv4_is_link_local a b c d || ipv4_is_broadcast a b c d ||
      ipv4_is_documentation a b c d || a = 0
  | some (.v6 segs) =>
    ipv6_is_loopback segs || ipv6_is_unspecified segs ||
      ipv6_is_unique_local segs || ipv6_is_multicast segs ||
      ipv6_is_unicast_link_local segs
  | none => false

example : is_reserved_ip "127.0.0.1" = true := by decide
example : is_reserved_ip "10.0.0.5" = true := by decide
example : is_reserved_ip "192.168.1.1" = true := by decide
example : is_reserved_ip "8.8.8.8" = false := by decide
example : is_reserved_ip "127.0.0.0/8" = false := by decide
example : is_reserved_ip "10.0.0.0/8" = false := by decide
example : is_reserved_ip "::1" = true := by decide
example : is_reserved_ip "fe80::1" = true := by decide
example : is_reserved_ip "2001:db8::1" = false := by decide

/-! ## Address display (Rust `Display` for `Ipv4Addr` / `Ipv6Addr`) -/

def ipv4ToString (a b c d : Nat) : String :=
  toString a ++ "." ++ toString b ++ "." ++ toString c ++ "." ++ toString d

def hexDigitChar (n : Nat) : Char :=
  if n < 10 then Char.ofNat ('0'.toNat + n) else Char.ofNat ('a'.toNat + n - 10)

/-- Lowercase hexadecimal rendering of a 16-bit group, without leading
zeros (Rust `{:x}` on `u16`). -/
def toHex16 (n : Nat) : String :=
  if n = 0 then "0"
  else
    let ds := [n / 4096 % 16, n / 256 % 16, n / 16 % 16, n % 16].dropWhile (· = 0)
    String.mk (ds.map hexDigitChar)

/-- Leftmost longest run of zero segments, as computed by the Rust
`Ipv6Addr` formatter: `(start, length)`. -/
def longestZeroRun (segs : List Nat) : Nat × Nat :=
  let st := segs.foldl
    (fun (st : (Nat × Nat) × (Nat × Nat) × Nat) (s : Nat) =>
      let ((lStart, lLen), (cStart, cLen), i) := st
      if s = 0 then
        let cur := if cLen = 0 then (i, 1) else (cStart, cLen + 1)
        let lng := if lLen < cur.2 then cur else (lStart, lLen)
        (lng, cur, i + 1)
      else ((lStart, lLen), (0, 0), i + 1))
    ((0, 0), (0, 0), 0)
  st.1

def fmtSegs (segs : List Nat) : String :=
  String.intercalate ":" (segs.map toHex16)

/-- Rust `Display` for `Ipv6Addr`: the IPv4-mapped special case, then
compression of the leftmost longest run of two or more zero groups. -/
def ipv6ToString (segs : List Nat) : String :=
  if seg segs 0 = 0 ∧ seg segs 1 = 0 ∧ seg segs 2 = 0 ∧ seg segs 3 = 0 ∧
      seg segs 4 = 0 ∧ seg segs 5 = 0xffff then
    "::ffff:" ++
      ipv4ToString (seg segs 6 / 256) (seg segs 6 % 256) (seg segs 7 / 256) (seg segs 7 % 256)
  else
    let (zStart, zLen) := longestZeroRun segs
    if 1 < zLen then
      fmtSegs (segs.take zStart) ++ "::" ++ fmtSegs (segs.drop (zStart + zLen))
    else fmtSegs segs

def ipAddrToString : IpAddr → String
  | .v4 a b c d => ipv4ToString a b c d
  | .v6 segs => ipv6ToString segs

example : ipAddrToString (.v4 10 0 0 0) = "10.0.0.0" := by decide
example : ipv6ToString [0, 0, 0, 0, 0, 0, 0, 0] = "::" := by decide
example : ipv6ToString [0, 0, 0, 0, 0, 0, 0, 1] = "::1" := by decide
example : ipv6ToString [0x2001, 0xdb8, 0, 0, 0, 0, 0, 1] = "2001:db8::1" := by decide
example : ipv6ToString [1, 0, 2, 3, 4, 5, 6, 7] = "1:0:2:3:4:5:6:7" := by decide
example : ipv6ToString [0, 0, 0, 0, 0, 0xffff, 0x0102, 0x0304] = "::ffff:1.2.3.4" := by decide
example : ipv6ToString [1, 0, 0, 2, 0, 0, 0, 3] = "1:0:0:2::3" := by decide

/-! ## CIDR networks (the `ipnet` crate, as used by `lookup_cidr`) -/

/-- An `ipnet::IpNet`: the address exactly as written (host bits kept)
plus the prefix length. -/
structure IpNet : Type where
  addr : IpAddr
  prefix_len : Nat
  deriving DecidableEq, Repr

/-- Split a character list at the first `/`, as `str::find('/')` does. -/
def splitAtFirstSlash : List Char → Option (List Char × List Char)
  | [] => none
  | c :: rest =>
    if c = '/' then some ([], rest)
    else
      match splitAtFirstSlash rest with
      | some (l, r) => some (c :: l, r)
      | none => none

/-- Rust `u8::from_str`: optional sign, then decimal digits, checked
against the `u8` range. -/
def parse_u8 (cs : List Char) : Option Nat :=
  let (neg, ds) :=
    match cs with
    | '+' :: rest => (false, rest)
    | '-' :: rest => (true, rest)
    | _ => (false, cs)
  if ds.length = 0 then none
  else if ds.all Char.isDigit then
    let v := digitsToNat 10 ds
    if neg then (if v = 0 then some 0 else none)
    else if v ≤ 255 then some v else none
  else none

/-- `IpNet::from_str`: split at the first `/`, parse the address part as
`Ipv4Addr` (falling back to `Ipv6Addr`) and the rest as a `u8` prefix
length bounded by the family's bit width. -/
def parse_ip_net (s : String) : Option IpNet :=
  match splitAtFirstSlash s.toList with
  | none => none
  | some (addrCs, lenCs) =>
    match read_ipv4_addr addrCs with
    | some ((a, b, c, d), []) =>
      match parse_u8 lenCs with
      | some p => if p ≤ 32 then some ⟨.v4 a b c d, p⟩ else none
      | none => none
    | _ =>
      match read_ipv6_addr addrCs with
      | some (segs, []) =>
        match parse_u8 lenCs with
        | some p => if p ≤ 128 then some ⟨.v6 segs, p⟩ else none
        | none => none
      | _ => none

def ipv4ToNat (a b c d : Nat) : Nat := ((a * 256 + b) * 256 + c) * 256 + d

def natToIpv4 (n : Nat) : IpAddr :=
  .v4 (n / 2 ^ 24 % 256) (n / 2 ^ 16 % 256) (n / 2 ^ 8 % 256) (n % 256)

def ipv6SegsToNat (segs : List Nat) : Nat :=
  segs.foldl (fun acc s => acc * 65536 + s) 0

def natToIpv6 (n : Nat) : IpAddr :=
  .v6 ((List.range 8).map (fun i => n / 2 ^ (16 * (7 - i)) % 65536))

/-- `IpNet::network()`: the address with host bits cleared. -/
def IpNet.network (net : IpNet) : IpAddr :=
  match net.addr with
  | .v4 a b c d =>
    let v := ipv4ToNat a b c d
    natToIpv4 (v - v % 2 ^ (32 - net.prefix_len))
  | .v6 segs =>
    let v := ipv6SegsToNat segs
    natToIpv6 (v - v % 2 ^ (128 - net.prefix_len))

/-- `IpNet::broadcast()`: the address with host bits set. -/
def IpNet.broadcast (net : IpNet) : IpAddr :=
  match net.addr with
  | .v4 a b c d =>
    let v := ipv4ToNat a b c d
    natToIpv4 (v - v % 2 ^ (32 - net.prefix_len) + (2 ^ (32 - net.prefix_len) - 1))
  | .v6 segs =>
    let v := ipv6SegsToNat segs
    natToIpv6 (v - v % 2 ^ (128 - net.prefix_len) + (2 ^ (128 - net.prefix_len) - 1))

example : parse_ip_net "10.0.0.0/8" = some ⟨.v4 10 0 0 0, 8⟩ := by decide
example : parse_ip_net "10.1.2.3/8" = some ⟨.v4 10 1 2 3, 8⟩ := by decide
example : parse_ip_net "10.1.2.3" = none := by decide
example : parse_ip_net "10.0.0.0/33" = none := by decide
example : IpNet.network ⟨.v4 10 1 2 3, 8⟩ = .v4 10 0 0 0 := by decide
example : IpNet.broadcast ⟨.v4 10 1 2 3, 8⟩ = .v4 10 255 255 255 := by decide
example : parse_ip_net "2001:db8::1/32" = some ⟨.v6 [0x2001, 0xdb8, 0, 0, 0, 0, 0, 1], 32⟩ := by
  decide
example : IpNet.network ⟨.v6 [0x2001, 0xdb8, 0, 0, 0, 0, 0, 1], 32⟩ =
    .v6 [0x2001, 0xdb8, 0, 0, 0, 0, 0, 0] := by decide

/-! ## Record data model (`whois_client.rs`, `bgptools_client.rs`,
`bgp_api_client.rs`, `rpki_client.rs`, `maxmind/reader.rs::IpInfo`)

Rust field names are kept; `prefix` becomes `prefix_` because `prefix` is
a Lean keyword. -/

structure WhoisInfo : Type where
  country : Option String
  netname : Option String
  descr : Option String
  org : Option String
  admin_c : Option String
  tech_c : Option String
  mnt_by : Option String
  last_modified : Option String
  raw_response : String
  deriving DecidableEq, Repr

structure BgpToolsUpstream : Type where
  asn : String
  name : Option String
  deriving DecidableEq, Repr

structure BgpToolsInfo : Type where
  asn : Option String
  ip : String
  prefix_ : Option String
  country : Option String
  registry : Option String
  allocated : Option String
  as_name : Option String
  upstreams : List BgpToolsUpstream
  raw_response : Option String
  deriving DecidableEq, Repr

structure BgpApiMeta : Type where
  source_type : Option String
  source_id : Option String
  origin_asns : Option (List String)
  type_ : Option String
  deriving DecidableEq, Repr

structure BgpApiResult : Type where
  prefix_ : String
  meta : List BgpApiMeta
  deriving DecidableEq, Repr

structure RpkiVrps : Type where
  asn : String
  prefix_ : String
  max_length : Option String
  deriving DecidableEq, Repr

structure RpkiValidity : Type where
  asn : String
  prefix_ : String
  validity : String
  reason : Option String
  vrps : Option (List RpkiVrps)
  deriving DecidableEq, Repr

/-- `maxmind/reader.rs::IpInfo`: the merged record, and the value type of
the IP cache. -/
structure IpInfo : Type where
  ip : String
  ip_range : Option String
  country : Option String
  city : Option String
  asn : Option Nat
  organization : Option String
  whois_info : Option WhoisInfo
  bgp_info : Option BgpToolsInfo
  bgp_api_info : Option BgpApiResult
  rpki_info_list : List RpkiValidity
  deriving DecidableEq, Repr

/-! ## MaxmindReader (`maxmind/reader.rs`)

The three mmdb readers are external read-only collaborators; each is
modelled as an optional lookup oracle returning `Except Unit (Option r)`:
`.ok (some r)` a record, `.ok none` address not in the database,
`.error ()` a reader error (which the source only logs). -/

structure AsnRecord : Type where
  autonomous_system_number : Option Nat
  autonomous_system_organization : Option String

/-- The localized-names map of a GeoIP2 record; only the two keys the
source consults (`zh-CN`, then `en`) are modelled. -/
structure NamesMap : Type where
  zh_CN : Option String
  en : Option String

/-- `names.get("zh-CN").or_else(|| names.get("en"))`. -/
def NamesMap.resolve (n : NamesMap) : Option String :=
  n.zh_CN.orElse (fun _ => n.en)

structure CountryRecord : Type where
  names : Option NamesMap

structure CityInner : Type where
  names : Option NamesMap

structure CityRecord : Type where
  city : Option CityInner
  country : Option CountryRecord

structure MaxmindReader : Type where
  asn_reader : Option (IpAddr → Except Unit (Option AsnRecord))
  city_reader : Option (IpAddr → Except Unit (Option CityRecord))
  country_reader : Option (IpAddr → Except Unit (Option CountryRecord))

/-- The record `lookup_ip` starts from before consulting any database. -/
def emptyIpInfo (ip_str : String) : IpInfo :=
  { ip := ip_str, ip_range := none, country := none, city := none,
    asn := none, organization := none, whois_info := none,
    bgp_info := none, bgp_api_info := none, rpki_info_list := [] }

/-- `MaxmindReader::lookup_ip`: parse the address, then fill ASN, city and
country from the databases; reader errors and missing records leave the
fields untouched; the standalone country database is consulted only when
the city database produced no country. -/
def MaxmindReader.lookup_ip (r : MaxmindReader) (ip_str : String) : Except String IpInfo :=
  match parse_ip_addr ip_str with
  | none => .error "无效的IP地址"
  | some ip =>
    let info0 := emptyIpInfo ip_str
    let info1 :=
      match r.asn_reader with
      | some rd =>
        match rd ip with
        | .ok (some asn) =>
          { info0 with asn := asn.autonomous_system_number,
                       organization := asn.autonomous_system_organization }
        | _ => info0
      | none => info0
    let info2 :=
      match r.city_reader with
      | some rd =>
        match rd ip with
        | .ok (some city_record) =>
          let i :=
            match city_record.city with
            | some c =>
              match c.names with
              | some names => { info1 with city := names.resolve }
              | none => info1
            | none => info1
          if i.country.isNone then
            match city_record.country with
            | some c =>
              match c.names with
              | some names => { i with country := names.resolve }
              | none => i
            | none => i
          else i
        | _ => info1
      | none => info1
    let info3 :=
      if info2.country.isNone then
        match r.country_reader with
        | some rd =>
          match rd ip with
          | .ok (some country_record) =>
            match country_record.names with
            | some names => { info2 with country := names.resolve }
            | none => info2
          | _ => info2
        | none => info2
      else info2
    .ok info3

/-- `MaxmindReader::lookup_cidr`: parse the CIDR, look up the network
address exactly as written (`IpNet::addr`), then override the identifier
with the original CIDR string and the range with the network/broadcast
boundary. -/
def MaxmindReader.lookup_cidr (r : MaxmindReader) (cidr_str : String) : Except String IpInfo :=
  match parse_ip_net cidr_str with
  | none => .error "无效的CIDR"
  | some network => do
    let ip_str := ipAddrToString network.addr
    let info ← r.lookup_ip ip_str
    .ok { info with
            ip := cidr_str,
            ip_range := some (ipAddrToString network.network ++ " - " ++
                              ipAddrToString network.broadcast) }

/-- The canned record `lookup` returns for reserved addresses. -/
def reservedIpInfo (ip_str : String) : IpInfo :=
  { ip := ip_str, ip_range := none, country := some "保留地址", city := none,
    asn := none, organization := some "保留地址", whois_info := none,
    bgp_info := none, bgp_api_info := none, rpki_info_list := [] }

/-- `MaxmindReader::lookup`: reserved short-circuit, then the CIDR path
for inputs containing `/`, else the plain-address path. -/
def MaxmindReader.lookup (r : MaxmindReader) (ip_str : String) : Except String IpInfo :=
  if is_reserved_ip ip_str then .ok (reservedIpInfo ip_str)
  else if '/' ∈ ip_str.toList then r.lookup_cidr ip_str
  else r.lookup_ip ip_str

/-! ## The persistent TTL key-value store (`utils/kv_store.rs`)

The `HashMap<K, Entry<V>>` is modelled as an association list (the
program-reachable lists have pairwise distinct keys, stated where a proof
needs it).  `bincode` serialization is an external collaborator; its only
observable use is the byte length of a serialized key/value, so
`estimate_size` takes the two length functions as parameters.  The
`file_path` / `last_persist` fields and the inline best-effort persist in
`set` are I/O state that never touches `entries` or `current_size_bytes`;
`persist_to_disk` is modelled as producing the snapshot value written to
disk and `load_from_disk` as consuming the parsed content of the file
(`none`: the file does not exist, or reading/deserializing failed — in
both cases the source leaves the map untouched). -/

def MAX_MEMORY_BYTES : Nat := 1024 * 1024 * 1024

def PERSIST_INTERVAL : Nat := 60 * 10

def EXPIRY_DURATION : Nat := 60 * 60 * 24

structure Entry (V : Type) : Type where
  value : V
  expires_at : Nat
  size_bytes : Nat
  deriving DecidableEq, Repr

structure StoreData (K V : Type) : Type where
  entries : List (K × Entry V)
  created_at : Nat
  deriving DecidableEq, Repr

structure KvStore (K V : Type) : Type where
  entries : List (K × Entry V)
  current_size_bytes : Nat
  deriving DecidableEq, Repr

variable {K V : Type} [DecidableEq K]

/-- `HashMap::get`. -/
def findEntry (k : K) : List (K × Entry V) → Option (Entry V)
  | [] => none
  | (k', e) :: t => if k' = k then some e else findEntry k t

/-- `HashMap::insert` (replace in place or add). -/
def insertEntry (k : K) (e : Entry V) : List (K × Entry V) → List (K × Entry V)
  | [] => [(k, e)]
  | (k', e') :: t => if k' = k then (k, e) :: t else (k', e') :: insertEntry k e t

/-- `HashMap::remove`, the map part. -/
def eraseEntry (k : K) : List (K × Entry V) → List (K × Entry V)
  | [] => []
  | (k', e') :: t => if k' = k then t else (k', e') :: eraseEntry k t

def KvStore.new : KvStore K V := ⟨[], 0⟩

/-- `KvStore::get`: clone of the value iff present and `expires_at > now`. -/
def KvStore.get (s : KvStore K V) (k : K) (now : Nat) : Option V :=
  match findEntry k s.entries with
  | some entry => if now < entry.expires_at then some entry.value else none
  | none => none

/-- `KvStore::contains_key`: same liveness check without the value. -/
def KvStore.contains_key (s : KvStore K V) (k : K) (now : Nat) : Bool :=
  match findEntry k s.entries with
  | some entry => now < entry.expires_at
  | none => false

/-- `KvStore::estimate_size`: serialized key length + serialized value
length + a fixed 64-byte overhead. -/
def estimate_size (sizeK : K → Nat) (sizeV : V → Nat) (k : K) (v : V) : Nat :=
  sizeK k + sizeV v + 64

/-- `KvStore::set`: reject the write if the hypothetical new total
(current minus any prior size for the key, plus the new entry size) would
exceed `MAX_MEMORY_BYTES`; otherwise insert with `expires_at = now + TTL`
and update the size counter. -/
def KvStore.set (s : KvStore K V) (sizeK : K → Nat) (sizeV : V → Nat)
    (k : K) (v : V) (now : Nat) : Except String Unit × KvStore K V :=
  let entry_size := estimate_size sizeK sizeV k v
  let old_size := (findEntry k s.entries).elim 0 (fun e => e.size_bytes)
  let new_total_size := s.current_size_bytes - old_size + entry_size
  if MAX_MEMORY_BYTES < new_total_size then
    (.error "超出内存限制，无法添加新条目", s)
  else
    let expires_at := now + EXPIRY_DURATION
    (.ok (),
      { entries := insertEntry k ⟨v, expires_at, entry_size⟩ s.entries,
        current_size_bytes := new_total_size })

/-- `KvStore::remove`: unconditional removal, decrementing the counter by
the removed entry's size. -/
def KvStore.remove (s : KvStore K V) (k : K) : Option V × KvStore K V :=
  match findEntry k s.entries with
  | some entry =>
    (some entry.value,
      { entries := eraseEntry k s.entries,
        current_size_bytes := s.current_size_bytes - entry.size_bytes })
  | none => (none, s)

/-- `KvStore::cleanup_expired`: collect the keys whose entry satisfies
`expires_at <= now`, then remove them one by one, decrementing the size
counter per removal; returns the collected count. -/
def KvStore.cleanup_expired (s : KvStore K V) (now : Nat) : Nat × KvStore K V :=
  let expired_keys :=
    (s.entries.filter (fun p => decide (p.2.expires_at ≤ now))).map Prod.fst
  let count := expired_keys.length
  (count, expired_keys.foldl (fun acc k => (acc.remove k).2) s)

/-- `KvStore::persist_to_disk`: the snapshot value written (whole entry
map plus a timestamp); the temp-file/rename mechanics are I/O. -/
def KvStore.persist_to_disk (s : KvStore K V) (now : Nat) : StoreData K V :=
  { entries := s.entries, created_at := now }

/-- `KvStore::load_from_disk`: missing file is a no-op; otherwise clear
the map and the counter, then re-insert every entry still unexpired at
load time, accumulating the counter. -/
def KvStore.load_from_disk (s : KvStore K V) (disk : Option (StoreData K V))
    (now : Nat) : KvStore K V :=
  match disk with
  | none => s
  | some store_data =>
    let cleared : KvStore K V := { entries := [], current_size_bytes := 0 }
    store_data.entries.foldl
      (fun acc p =>
        if now < p.2.expires_at then
          { current_size_bytes := acc.current_size_bytes + p.2.size_bytes,
            entries := insertEntry p.1 p.2 acc.entries }
        else acc)
      cleared

def KvStore.len (s : KvStore K V) : Nat := s.entries.length

def KvStore.memory_usage (s : KvStore K V) : Nat := s.current_size_bytes

/-- Total of the per-entry sizes. -/
def sizeSum (l : List (K × Entry V)) : Nat :=
  (l.map (fun p => p.2.size_bytes)).sum

/-- The size-accounting invariant of the store. -/
def KvStore.Inv (s : KvStore K V) : Prop :=
  s.current_size_bytes = sizeSum s.entries

/-! ## The request handler (`api/ip_api.rs`)

Response types live in the `Api` namespace (the Rust source has a second
`IpInfo` struct in this module).  The four network providers are external
collaborators, modelled as deterministic oracles; every external
interaction of one request (cache read, provider call, cache write) is
recorded, in program order, in a trace of `ProviderCall`s. -/

namespace Api

structure IpInfo : Type where
  ip : String
  ip_range : Option String
  country : Option String
  city : Option String
  asn : Option Nat
  organization : Option String
  deriving DecidableEq, Repr

structure WhoisInfoResponse : Type where
  netname : Option String
  descr : Option String
  country : Option String
  org : Option String
  admin : Option String
  maintainer : Option String
  deriving DecidableEq, Repr

structure BgpInfoResponse : Type where
  asn : Option String
  prefix_ : Option String
  country : Option String
  registry : Option String
  allocated : Option String
  as_name : Option String
  upstreams : List BgpToolsUpstream
  deriving DecidableEq, Repr

structure IpResponse : Type where
  info : IpInfo
  whois_info : Option WhoisInfoResponse
  bgp_info : Option BgpInfoResponse
  rpki_info_list : List RpkiValidity
  cached : Option Nat
  deriving DecidableEq, Repr

structure ErrorResponse : Type where
  status : String
  message : String
  deriving DecidableEq, Repr

end Api

/-- The HTTP-level outcome of `get_ip_info`: `200 OK` with a record, or
`400 BAD_REQUEST` with an error body. -/
inductive HttpResult : Type
  | ok (response : Api.IpResponse)
  | badRequest (response : Api.ErrorResponse)
  deriving DecidableEq, Repr

def HttpResult.isOk : HttpResult → Bool
  | .ok _ => true
  | .badRequest _ => false

/-- The enrichment providers, as deterministic oracles. -/
structure Providers : Type where
  whois : String → Except String WhoisInfo
  bgp_tools : String → Except String BgpToolsInfo
  bgp_api : String → Except String BgpApiResult
  rpki : String → String → Except String RpkiValidity

/-- One external interaction of a request, in program order. -/
inductive ProviderCall : Type
  | cacheGet (ip : String)
  | whois (ip : String)
  | bgpTools (ip : String)
  | bgpApi (ip : String)
  | rpki (prefix_ asn : String)
  | cacheSet (ip : String)
  deriving DecidableEq, Repr

/-- `futures::future::join_all`: drives all futures to completion and
returns their outputs in a vector indexed like the input vector — the
order in which the individual futures happen to complete does not affect
the result. -/
def join_all {α : Type} (futures : List α) : List α := futures

/-- The successful results listed in the order the queries completed,
`completion` being the completion order as a list of input indices.  This
is what the specification asserts the RPKI list to be; it is a predicate
vocabulary for the claims, not part of the program model. -/
def completion_order_results {α : Type} (futures : List (Option α))
    (completion : List Nat) : List α :=
  completion.filterMap (fun i => (futures.getD i none))

/-- `IpApiHandler::create_response_from_ip_info`. -/
def create_response_from_ip_info (info : IpInfo) (cached_timestamp : Option Nat) :
    Api.IpResponse :=
  let ip_info : Api.IpInfo :=
    { ip := info.ip, ip_range := info.ip_range, country := info.country,
      city := info.city, asn := info.asn, organization := info.organization }
  let whois_info : Option Api.WhoisInfoResponse :=
    match info.whois_info with
    | some whois =>
      some { netname := whois.netname, descr := whois.descr,
             country := whois.country, org := whois.org,
             admin := whois.admin_c, maintainer := whois.mnt_by }
    | none => none
  let bgp_info : Option Api.BgpInfoResponse :=
    match info.bgp_info with
    | some bgp =>
      some { asn := bgp.asn, prefix_ := bgp.prefix_, country := bgp.country,
             registry := bgp.registry, allocated := bgp.allocated,
             as_name := bgp.as_name, upstreams := bgp.upstreams }
    | none => none
  { info := ip_info, whois_info := whois_info, bgp_info := bgp_info,
    rpki_info_list := info.rpki_info_list, cached := cached_timestamp }

/-- The enrichment fan-out of `get_ip_info` on a fresh record: the WHOIS,
bgp.tools and BGP REST providers run concurrently, each launched only when
the fresh record lacks the field and each failure logged and dropped; if
the BGP REST result carries a metadata entry with origin ASNs, the RPKI
provider is then queried once per origin ASN of the first such entry and
the successful results collected.  Returns the enriched record and the
provider calls made. -/
def enriched_info (P : Providers) (ip : String) (info : IpInfo) :
    IpInfo × List ProviderCall :=
  let (whois_result, whois_calls) :=
    if info.whois_info.isNone then ((P.whois ip).toOption, [ProviderCall.whois ip])
    else (none, [])
  let (bgp_tools_result, bgp_tools_calls) :=
    if info.bgp_info.isNone then ((P.bgp_tools ip).toOption, [ProviderCall.bgpTools ip])
    else (none, [])
  let (bgp_api_result, bgp_api_calls) :=
    if info.bgp_api_info.isNone then ((P.bgp_api ip).toOption, [ProviderCall.bgpApi ip])
    else (none, [])
  let info1 :=
    match whois_result with
    | some whois_info => { info with whois_info := some whois_info }
    | none => info
  let info2 :=
    match bgp_tools_result with
    | some bgp_info => { info1 with bgp_info := some bgp_info }
    | none => info1
  let (info3, rpki_calls) :=
    match bgp_api_result with
    | some bgp_result =>
      let infoB := { info2 with bgp_api_info := some bgp_result }
      match bgp_result.meta.find? (fun m => m.origin_asns.isSome) with
      | some meta =>
        match meta.origin_asns with
        | some asns =>
          let rpki_results :=
            join_all (asns.map (fun asn => (P.rpki bgp_result.prefix_ asn).toOption))
          ({ infoB with rpki_info_list := rpki_results.filterMap id },
            asns.map (fun asn => ProviderCall.rpki bgp_result.prefix_ asn))
        | none => (infoB, [])
      | none => (infoB, [])
    | none => (info2, [])
  (info3, whois_calls ++ bgp_tools_calls ++ bgp_api_calls ++ rpki_calls)

/-- `IpApiHandler::get_ip_info`: cache-aside read, primary MaxMind lookup,
concurrent enrichment fan-out, then response construction and a
best-effort cache write.  Returns the HTTP result, the cache after the
request, and the interaction trace. -/
def get_ip_info (P : Providers) (reader : MaxmindReader)
    (sizeK : String → Nat) (sizeV : IpInfo → Nat) (now : Nat)
    (cache : KvStore String IpInfo) (ip : String) :
    HttpResult × KvStore String IpInfo × List ProviderCall :=
  match cache.get ip now with
  | some cached_info =>
    (.ok (create_response_from_ip_info cached_info (some now)), cache,
      [.cacheGet ip])
  | none =>
    match reader.lookup ip with
    | .error e =>
      (.badRequest { status := "error", message := e }, cache, [.cacheGet ip])
    | .ok info =>
      let info3 := (enriched_info P ip info).1
      let enrich_calls := (enriched_info P ip info).2
      let response := create_response_from_ip_info info3 none
      let cache2 := (cache.set sizeK sizeV ip info3 now).2
      (.ok response, cache2,
        [ProviderCall.cacheGet ip] ++ enrich_calls ++ [ProviderCall.cacheSet ip])

/-! ## Store lemmas -/

lemma sizeSum_nil : sizeSum ([] : List (K × Entry V)) = 0 := rfl

lemma sizeSum_cons (p : K × Entry V) (t : List (K × Entry V)) :
    sizeSum (p :: t) = p.2.size_bytes + sizeSum t := by
  simp [sizeSum]

lemma sizeSum_append (l1 l2 : List (K × Entry V)) :
    sizeSum (l1 ++ l2) = sizeSum l1 + sizeSum l2 := by
  simp [sizeSum]

lemma sizeSum_insertEntry (k : K) (e : Entry V) (l : List (K × Entry V)) :
    sizeSum (insertEntry k e l) + (findEntry k l).elim 0 (fun e0 => e0.size_bytes) =
      sizeSum l + e.size_bytes := by
  induction l with
  | nil => simp [insertEntry, findEntry, sizeSum]
  | cons p t ih =>
    obtain ⟨k', e'⟩ := p
    by_cases h : k' = k
    · subst h
      simp [insertEntry, findEntry, sizeSum_cons]
      omega
    · simp only [insertEntry, findEntry, if_neg h, sizeSum_cons]
      omega

lemma findEntry_elim_le (k : K) (l : List (K × Entry V)) :
    (findEntry k l).elim 0 (fun e0 => e0.size_bytes) ≤ sizeSum l := by
  induction l with
  | nil => simp [findEntry]
  | cons p t ih =>
    obtain ⟨k', e'⟩ := p
    by_cases h : k' = k
    · subst h
      simp [findEntry, sizeSum_cons]
    · simp only [findEntry, if_neg h, sizeSum_cons]
      omega

lemma sizeSum_eraseEntry {k : K} {l : List (K × Entry V)} {e : Entry V}
    (h : findEntry k l = some e) :
    sizeSum (eraseEntry k l) + e.size_bytes = sizeSum l := by
  induction l with
  | nil => simp [findEntry] at h
  | cons p t ih =>
    obtain ⟨k', e'⟩ := p
    by_cases hk : k' = k
    · subst hk
      simp only [findEntry, if_true, eq_self_iff_true, Option.some.injEq] at h
      simp [eraseEntry, sizeSum_cons, ← h]
      omega
    · simp only [findEntry, if_neg hk] at h
      simp only [eraseEntry, if_neg hk, sizeSum_cons]
      have := ih h
      omega

lemma findEntry_insertEntry_of_none {k : K} {l : List (K × Entry V)} (e : Entry V)
    (h : findEntry k l = none) : insertEntry k e l = l ++ [(k, e)] := by
  induction l with
  | nil => simp [insertEntry]
  | cons p t ih =>
    obtain ⟨k', e'⟩ := p
    by_cases hk : k' = k
    · simp [findEntry, hk] at h
    · simp only [findEntry, if_neg hk] at h
      simp [insertEntry, hk, ih h]

lemma findEntry_append_of_none {k : K} {l1 : List (K × Entry V)}
    (l2 : List (K × Entry V)) (h : findEntry k l1 = none) :
    findEntry k (l1 ++ l2) = findEntry k l2 := by
  induction l1 with
  | nil => simp
  | cons p t ih =>
    obtain ⟨k', e'⟩ := p
    by_cases hk : k' = k
    · simp [findEntry, hk] at h
    · simp only [findEntry, if_neg hk] at h
      simp [findEntry, hk, ih h]

lemma Inv_set (s : KvStore K V) (sizeK : K → Nat) (sizeV : V → Nat)
    (k : K) (v : V) (now : Nat) (h : s.Inv) :
    ((s.set sizeK sizeV k v now).2).Inv := by
  simp only [KvStore.set]
  split
  · exact h
  · have h1 := sizeSum_insertEntry k
      ⟨v, now + EXPIRY_DURATION, estimate_size sizeK sizeV k v⟩ s.entries
    have h2 := findEntry_elim_le k (V := V) s.entries
    simp only [KvStore.Inv] at h ⊢
    simp only [] at h1
    omega

lemma Inv_remove (s : KvStore K V) (k : K) (h : s.Inv) :
    ((s.remove k).2).Inv := by
  simp only [KvStore.remove]
  split
  case h_1 e heq =>
    have h1 := sizeSum_eraseEntry heq
    have h2 := findEntry_elim_le k (V := V) s.entries
    simp only [KvStore.Inv] at h ⊢
    omega
  case h_2 => exact h

lemma Inv_remove_foldl (ks : List K) (s : KvStore K V) (h : s.Inv) :
    (ks.foldl (fun acc k => (acc.remove k).2) s).Inv := by
  induction ks generalizing s with
  | nil => exact h
  | cons k t ih => exact ih _ (Inv_remove s k h)

lemma Inv_cleanup (s : KvStore K V) (now : Nat) (h : s.Inv) :
    ((s.cleanup_expired now).2).Inv := by
  simp only [KvStore.cleanup_expired]
  exact Inv_remove_foldl _ s h

/-- The per-step function of `load_from_disk`, as a `foldl` body. -/
lemma load_foldl (now : Nat) (l : List (K × Entry V)) (acc : KvStore K V)
    (hnd : (l.map Prod.fst).Nodup)
    (hfresh : ∀ p ∈ l, findEntry p.1 acc.entries = none) :
    (l.foldl
        (fun acc p =>
          if now < p.2.expires_at then
            ({ current_size_bytes := acc.current_size_bytes + p.2.size_bytes,
               entries := insertEntry p.1 p.2 acc.entries } : KvStore K V)
          else acc)
        acc).entries
      = acc.entries ++ l.filter (fun p => decide (now < p.2.expires_at)) ∧
    (l.foldl
        (fun acc p =>
          if now < p.2.expires_at then
            ({ current_size_bytes := acc.current_size_bytes + p.2.size_bytes,
               entries := insertEntry p.1 p.2 acc.entries } : KvStore K V)
          else acc)
        acc).current_size_bytes
      = acc.current_size_bytes +
          sizeSum (l.filter (fun p => decide (now < p.2.expires_at))) := by
  induction l generalizing acc with
  | nil => simp [sizeSum]
  | cons p t ih =>
    obtain ⟨hp, hnd'⟩ := List.nodup_cons.mp hnd
    by_cases hexp : now < p.2.expires_at
    · have hfp : findEntry p.1 acc.entries = none := hfresh p (List.mem_cons_self p t)
      have happ := findEntry_insertEntry_of_none p.2 hfp
      have hfresh' : ∀ q ∈ t,
          findEntry q.1 (insertEntry p.1 p.2 acc.entries) = none := by
        intro q hq
        rw [happ, findEntry_append_of_none _ (hfresh q (List.mem_cons_of_mem p hq))]
        have hne : p.1 ≠ q.1 := by
          intro hEq
          exact hp (hEq ▸ List.mem_map_of_mem Prod.fst hq)
        simp [findEntry, hne]
      have := ih ({ current_size_bytes := acc.current_size_bytes + p.2.size_bytes,
                    entries := insertEntry p.1 p.2 acc.entries } : KvStore K V)
        hnd' hfresh'
      simp only [List.foldl_cons, if_pos hexp] at *
      obtain ⟨he, hc⟩ := this
      constructor
      · rw [he, happ, List.filter_cons_of_pos (by simpa using hexp)]
        simp
      · rw [hc, List.filter_cons_of_pos (by simpa using hexp), sizeSum_cons]
        omega
    · have := ih acc hnd' (fun q hq => hfresh q (List.mem_cons_of_mem p hq))
      simp only [List.foldl_cons, if_neg hexp] at *
      obtain ⟨he, hc⟩ := this
      constructor
      · rw [he, List.filter_cons_of_neg (by simpa using hexp)]
      · rw [hc, List.filter_cons_of_neg (by simpa using hexp)]

lemma load_from_disk_some (s : KvStore K V) (d : StoreData K V) (now : Nat)
    (hnd : (d.entries.map Prod.fst).Nodup) :
    (s.load_from_disk (some d) now).entries
      = d.entries.filter (fun p => decide (now < p.2.expires_at)) ∧
    (s.load_from_disk (some d) now).current_size_bytes
      = sizeSum (d.entries.filter (fun p => decide (now < p.2.expires_at))) := by
  have := load_foldl now d.entries
    ({ entries := [], current_size_bytes := 0 } : KvStore K V) hnd
    (by intro p _; rfl)
  simpa [KvStore.load_from_disk] using this

lemma Inv_load (s : KvStore K V) (disk : Option (StoreData K V)) (now : Nat)
    (h : s.Inv) (hnd : ∀ d, disk = some d → (d.entries.map Prod.fst).Nodup) :
    (s.load_from_disk disk now).Inv := by
  match disk with
  | none => exact h
  | some d =>
    obtain ⟨he, hc⟩ := load_from_disk_some s d now (hnd d rfl)
    simp only [KvStore.Inv, he, hc]

/-! ## Claims about the store -/

/-- C3: a `set` whose hypothetical new total (current size, minus any
prior entry's size for the same key, plus the new entry's size) would
exceed `capacity_bytes` returns the capacity error and leaves the store
byte-for-byte unchanged: entry map, size counter, `len()` and
`memory_usage()` are exactly as before the call. -/
theorem claim_C3_capacity_exceeded_rejected_in_full
    (s : KvStore K V) (sizeK : K → Nat) (sizeV : V → Nat) (k : K) (v : V) (now : Nat)
    (hover : MAX_MEMORY_BYTES <
      s.current_size_bytes - (findEntry k s.entries).elim 0 (fun e => e.size_bytes) +
        estimate_size sizeK sizeV k v) :
    s.set sizeK sizeV k v now = (.error "超出内存限制，无法添加新条目", s) ∧
    (s.set sizeK sizeV k v now).2.entries = s.entries ∧
    (s.set sizeK sizeV k v now).2.current_size_bytes = s.current_size_bytes ∧
    (s.set sizeK sizeV k v now).2.len = s.len ∧
    (s.set sizeK sizeV k v now).2.memory_usage = s.memory_usage := by
  simp [KvStore.set, if_pos hover, KvStore.len, KvStore.memory_usage]

theorem claim_C3_witness :
    MAX_MEMORY_BYTES <
      (KvStore.new : KvStore Nat Nat).current_size_bytes -
        (findEntry 1 (KvStore.new : KvStore Nat Nat).entries).elim 0 (fun e => e.size_bytes) +
        estimate_size (fun _ => 0) (fun _ => MAX_MEMORY_BYTES) 1 7 ∧
    (KvStore.new : KvStore Nat Nat).set (fun _ => 0) (fun _ => MAX_MEMORY_BYTES) 1 7 5 =
      (.error "超出内存限制，无法添加新条目", KvStore.new) := by
  refine ⟨by decide, ?_⟩
  exact (claim_C3_capacity_exceeded_rejected_in_full KvStore.new
    (fun _ => 0) (fun _ => MAX_MEMORY_BYTES) 1 7 5 (by decide)).1

/-- C4: the size-accounting invariant `current_size_bytes = Σ sizes`
holds in the fresh store and is preserved by `set` (successful or not),
`remove`, `cleanup_expired`, and `load_from_disk` (whose on-disk map, a
serialized `HashMap`, has pairwise distinct keys). -/
theorem claim_C4_size_invariant_preserved :
    (KvStore.new : KvStore K V).Inv ∧
    (∀ (s : KvStore K V) (sizeK : K → Nat) (sizeV : V → Nat) (k : K) (v : V) (now : Nat),
      s.Inv → ((s.set sizeK sizeV k v now).2).Inv) ∧
    (∀ (s : KvStore K V) (k : K), s.Inv → ((s.remove k).2).Inv) ∧
    (∀ (s : KvStore K V) (now : Nat), s.Inv → ((s.cleanup_expired now).2).Inv) ∧
    (∀ (s : KvStore K V) (disk : Option (StoreData K V)) (now : Nat),
      s.Inv → (∀ d, disk = some d → (d.entries.map Prod.fst).Nodup) →
      (s.load_from_disk disk now).Inv) :=
  ⟨rfl, Inv_set, Inv_remove, Inv_cleanup, Inv_load⟩

theorem claim_C4_witness :
    (((KvStore.new : KvStore Nat Nat).set (fun _ => 1) (fun _ => 2) 3 4 5).2).Inv ∧
    (((KvStore.new : KvStore Nat Nat).remove 3).2).Inv :=
  ⟨claim_C4_size_invariant_preserved.2.1 KvStore.new (fun _ => 1) (fun _ => 2) 3 4 5
      claim_C4_size_invariant_preserved.1,
    claim_C4_size_invariant_preserved.2.2.1 KvStore.new 3
      claim_C4_size_invariant_preserved.1⟩

/-- C5: an entry with `expires_at <= now` is invisible to `get` and
`contains_key` even before any sweep removes it, and `get` returns the
stored value exactly when an entry for the key exists with
`expires_at > now`. -/
theorem claim_C5_lazy_expiry_visibility (s : KvStore K V) (k : K) (now : Nat) :
    (∀ e, findEntry k s.entries = some e → e.expires_at ≤ now →
      s.get k now = none ∧ s.contains_key k now = false) ∧
    (∀ v, s.get k now = some v ↔
      ∃ e, findEntry k s.entries = some e ∧ now < e.expires_at ∧ v = e.value) := by
  constructor
  · intro e he hexp
    simp only [KvStore.get, KvStore.contains_key, he]
    constructor
    · rw [if_neg (by omega)]
    · simp only [decide_eq_false_iff_not]
      omega
  · intro v
    constructor
    · intro h
      unfold KvStore.get at h
      split at h
      next e hf =>
        split at h
        next hlt => exact ⟨e, hf, hlt, (Option.some.inj h).symm⟩
        next => simp at h
      next => simp at h
    · rintro ⟨e, he, hlt, rfl⟩
      unfold KvStore.get
      rw [he]
      simp [hlt]

theorem claim_C5_witness :
    (⟨[(2, ⟨9, 50, 10⟩)], 10⟩ : KvStore Nat Nat).get 2 50 = none ∧
    (⟨[(2, ⟨9, 50, 10⟩)], 10⟩ : KvStore Nat Nat).contains_key 2 50 = false ∧
    (⟨[(2, ⟨9, 50, 10⟩)], 10⟩ : KvStore Nat Nat).get 2 49 = some 9 := by
  have h := claim_C5_lazy_expiry_visibility (⟨[(2, ⟨9, 50, 10⟩)], 10⟩ : KvStore Nat Nat) 2 50
  have h49 := claim_C5_lazy_expiry_visibility (⟨[(2, ⟨9, 50, 10⟩)], 10⟩ : KvStore Nat Nat) 2 49
  refine ⟨(h.1 ⟨9, 50, 10⟩ rfl (by decide)).1, (h.1 ⟨9, 50, 10⟩ rfl (by decide)).2, ?_⟩
  exact (h49.2 9).mpr ⟨⟨9, 50, 10⟩, rfl, by decide, rfl⟩

lemma findEntry_eq_none_of_keys {k : K} {l : List (K × Entry V)}
    (h : ∀ p ∈ l, p.1 ≠ k) : findEntry k l = none := by
  induction l with
  | nil => rfl
  | cons q t ih =>
    obtain ⟨k', e'⟩ := q
    have hk : k' ≠ k := h (k', e') (List.mem_cons_self _ _)
    simp only [findEntry, if_neg hk]
    exact ih (fun p hp => h p (List.mem_cons_of_mem _ hp))

lemma findEntry_filter_none {k : K} {e : Entry V} {l : List (K × Entry V)}
    (p : K × Entry V → Bool) (hnd : (l.map Prod.fst).Nodup)
    (hf : findEntry k l = some e) (hp : p (k, e) = false) :
    findEntry k (l.filter p) = none := by
  induction l with
  | nil => simp [findEntry] at hf
  | cons q t ih =>
    obtain ⟨k', e'⟩ := q
    simp only [List.map_cons, List.nodup_cons] at hnd
    by_cases hk : k' = k
    · subst hk
      simp only [findEntry, if_true, eq_self_iff_true, Option.some.injEq] at hf
      subst hf
      rw [List.filter_cons_of_neg (by simp [hp])]
      refine findEntry_eq_none_of_keys ?_
      intro q hq hEq
      exact hnd.1 (hEq ▸ List.mem_map_of_mem Prod.fst (List.mem_of_mem_filter hq))
    · simp only [findEntry, if_neg hk] at hf
      by_cases hq : p (k', e') = true
      · rw [List.filter_cons_of_pos hq]
        simp only [findEntry, if_neg hk]
        exact ih hnd.2 hf
      · rw [List.filter_cons_of_neg (by simp [hq])]
        exact ih hnd.2 hf

/-- C6: persisting a store and loading the snapshot into a fresh empty
store keeps exactly the entries unexpired at load time, with their
original sizes; expired entries are absent; the new size counter is the
sum of the surviving sizes. -/
theorem claim_C6_persist_load_roundtrip (s : KvStore K V) (now_persist now_load : Nat)
    (hnd : (s.entries.map Prod.fst).Nodup) :
    ((KvStore.new : KvStore K V).load_from_disk
        (some (s.persist_to_disk now_persist)) now_load).entries
      = s.entries.filter (fun p => decide (now_load < p.2.expires_at)) ∧
    ((KvStore.new : KvStore K V).load_from_disk
        (some (s.persist_to_disk now_persist)) now_load).current_size_bytes
      = sizeSum (s.entries.filter (fun p => decide (now_load < p.2.expires_at))) ∧
    (∀ k e, findEntry k s.entries = some e → e.expires_at ≤ now_load →
      findEntry k ((KvStore.new : KvStore K V).load_from_disk
        (some (s.persist_to_disk now_persist)) now_load).entries = none) := by
  obtain ⟨he, hc⟩ := load_from_disk_some (KvStore.new : KvStore K V)
    (s.persist_to_disk now_persist) now_load hnd
  refine ⟨he, hc, ?_⟩
  intro k e hf hexp
  rw [he]
  refine findEntry_filter_none _ hnd hf ?_
  simp only [decide_eq_false_iff_not]
  omega

theorem claim_C6_witness :
    ((KvStore.new : KvStore Nat Nat).load_from_disk
        (some ((⟨[(1, ⟨10, 100, 7⟩), (2, ⟨20, 30, 9⟩)], 16⟩ :
          KvStore Nat Nat).persist_to_disk 40)) 50).entries
      = [(1, ⟨10, 100, 7⟩)] ∧
    ((KvStore.new : KvStore Nat Nat).load_from_disk
        (some ((⟨[(1, ⟨10, 100, 7⟩), (2, ⟨20, 30, 9⟩)], 16⟩ :
          KvStore Nat Nat).persist_to_disk 40)) 50).current_size_bytes = 7 := by
  have h := claim_C6_persist_load_roundtrip
    (⟨[(1, ⟨10, 100, 7⟩), (2, ⟨20, 30, 9⟩)], 16⟩ : KvStore Nat Nat) 40 50 (by decide)
  exact ⟨by rw [h.1]; decide, by rw [h.2.1]; decide⟩

/-! ## Enrichment lemmas for the handler -/

lemma enriched_info_geo_fields (P : Providers) (ip : String) (info : IpInfo) :
    (enriched_info P ip info).1.ip = info.ip ∧
    (enriched_info P ip info).1.ip_range = info.ip_range ∧
    (enriched_info P ip info).1.country = info.country ∧
    (enriched_info P ip info).1.city = info.city ∧
    (enriched_info P ip info).1.asn = info.asn ∧
    (enriched_info P ip info).1.organization = info.organization := by
  unfold enriched_info
  repeat' split
  all_goals simp_all

lemma enriched_info_whois (P : Providers) (ip : String) (info : IpInfo)
    (h : info.whois_info = none) :
    (enriched_info P ip info).1.whois_info = (P.whois ip).toOption := by
  unfold enriched_info
  simp only [h, Option.isNone_none, if_true]
  repeat' split
  all_goals simp_all

lemma enriched_info_bgp (P : Providers) (ip : String) (info : IpInfo)
    (h : info.bgp_info = none) :
    (enriched_info P ip info).1.bgp_info = (P.bgp_tools ip).toOption := by
  unfold enriched_info
  simp only [h, Option.isNone_none, if_true]
  repeat' split
  all_goals simp_all

lemma enriched_info_bgp_api_fail (P : Providers) (ip : String) (info : IpInfo)
    (h : info.bgp_api_info = none) (hfail : (P.bgp_api ip).toOption = none) :
    (enriched_info P ip info).1.bgp_api_info = none ∧
    (enriched_info P ip info).1.rpki_info_list = info.rpki_info_list := by
  unfold enriched_info
  simp only [h, Option.isNone_none, if_true, hfail]
  repeat' split
  all_goals simp_all

lemma enriched_info_rpki (P : Providers) (ip : String) (info : IpInfo)
    (b : BgpApiResult) (m : BgpApiMeta) (asns : List String)
    (h1 : info.whois_info = none) (h2 : info.bgp_info = none)
    (h3 : info.bgp_api_info = none)
    (hok : P.bgp_api ip = .ok b)
    (hfind : b.meta.find? (fun mm => mm.origin_asns.isSome) = some m)
    (hasns : m.origin_asns = some asns) :
    (enriched_info P ip info).1.rpki_info_list =
      (asns.map (fun a => (P.rpki b.prefix_ a).toOption)).filterMap id ∧
    (enriched_info P ip info).2 =
      [ProviderCall.whois ip, ProviderCall.bgpTools ip, ProviderCall.bgpApi ip] ++
        asns.map (fun a => ProviderCall.rpki b.prefix_ a) := by
  unfold enriched_info
  simp only [h1, h2, h3, Option.isNone_none, if_true, hok, Except.toOption, hfind, hasns,
    join_all]
  repeat' split
  all_goals simp_all

lemma enriched_info_rpki_no_meta (P : Providers) (ip : String) (info : IpInfo)
    (b : BgpApiResult)
    (h3 : info.bgp_api_info = none)
    (hok : P.bgp_api ip = .ok b)
    (hfind : b.meta.find? (fun mm => mm.origin_asns.isSome) = none) :
    (enriched_info P ip info).1.rpki_info_list = info.rpki_info_list ∧
    (∀ pfx a, ProviderCall.rpki pfx a ∉ (enriched_info P ip info).2) := by
  unfold enriched_info
  simp only [h3, Option.isNone_none, if_true, hok, Except.toOption, hfind]
  repeat' split
  all_goals simp_all

lemma enriched_info_calls_shape (P : Providers) (ip : String) (info : IpInfo)
    (h1 : info.whois_info = none) (h2 : info.bgp_info = none)
    (h3 : info.bgp_api_info = none) :
    ∃ rpki_calls,
      (enriched_info P ip info).2 =
        [ProviderCall.whois ip, ProviderCall.bgpTools ip, ProviderCall.bgpApi ip] ++
          rpki_calls := by
  unfold enriched_info
  simp only [h1, h2, h3, Option.isNone_none, if_true]
  repeat' split
  all_goals exact ⟨_, rfl⟩

set_option maxHeartbeats 1000000 in
/-- Every record produced by the primary lookup has the enrichment fields
empty. -/
lemma lookup_fresh_fields (r : MaxmindReader) (s : String) (info : IpInfo)
    (h : r.lookup s = .ok info) :
    info.whois_info = none ∧ info.bgp_info = none ∧
    info.bgp_api_info = none ∧ info.rpki_info_list = [] := by
  unfold MaxmindReader.lookup at h
  split at h
  · cases h
    simp [reservedIpInfo]
  · split at h
    · unfold MaxmindReader.lookup_cidr at h
      split at h
      · cases h
      · rename_i net _
        simp only [bind, Except.bind] at h
        cases hip : MaxmindReader.lookup_ip r (ipAddrToString net.addr) with
        | error e => rw [hip] at h; cases h
        | ok base =>
          rw [hip] at h
          cases h
          unfold MaxmindReader.lookup_ip at hip
          split at hip
          · cases hip
          · repeat' split at hip
            all_goals
              (cases hip;
               first
                 | (split_ifs <;> simp [emptyIpInfo])
                 | simp [emptyIpInfo])
    · unfold MaxmindReader.lookup_ip at h
      split at h
      · cases h
      · repeat' split at h
        all_goals
          (cases h;
           first
             | (split_ifs <;> simp [emptyIpInfo])
             | simp [emptyIpInfo])

instance {E A : Type} [DecidableEq E] [DecidableEq A] : DecidableEq (Except E A) :=
  fun a b =>
    match a, b with
    | .ok x, .ok y =>
      if h : x = y then .isTrue (by rw [h]) else .isFalse (by simp [h])
    | .error x, .error y =>
      if h : x = y then .isTrue (by rw [h]) else .isFalse (by simp [h])
    | .ok _, .error _ => .isFalse (by simp)
    | .error _, .ok _ => .isFalse (by simp)

/-! ## Concrete environments used by counterexamples and witnesses -/

/-- A reader with no databases loaded (the geo fields stay empty). -/
def noReader : MaxmindReader := ⟨none, none, none⟩

/-- Providers that all fail. -/
def failProviders : Providers :=
  ⟨fun _ => .error "down", fun _ => .error "down", fun _ => .error "down",
   fun _ _ => .error "down"⟩

/-! ## Claims about the handler -/

/-- C2 (amended): a cache hit returns a clone of the stored record tagged
with the time of the lookup as the cache timestamp, and neither the store
nor the stored entry is mutated by the hit. -/
theorem claim_C2_cache_hit_tagged_with_lookup_time (P : Providers)
    (reader : MaxmindReader) (sizeK : String → Nat) (sizeV : IpInfo → Nat)
    (now : Nat) (cache : KvStore String IpInfo) (ip : String) (v : IpInfo)
    (hhit : cache.get ip now = some v) :
    get_ip_info P reader sizeK sizeV now cache ip =
      (.ok (create_response_from_ip_info v (some now)), cache,
        [ProviderCall.cacheGet ip]) := by
  simp only [get_ip_info, hhit]

/-- The cache state of the C2 scenario: one record inserted at time 1000
(so its `expires_at` is 1000 + TTL). -/
def c2Store : KvStore String IpInfo :=
  ((KvStore.new : KvStore String IpInfo).set (fun _ => 0) (fun _ => 0)
    "1.2.3.4" (emptyIpInfo "1.2.3.4") 1000).2

/-- C2 counterexample: the record was inserted into the cache at time
1000, yet the hit at time 1100 is tagged `some 1100` (the lookup time),
not `some 1000` (the original cache timestamp). -/
theorem claim_C2_counterexample :
    findEntry "1.2.3.4" c2Store.entries =
      some ⟨emptyIpInfo "1.2.3.4", 1000 + EXPIRY_DURATION, 64⟩ ∧
    (get_ip_info failProviders noReader (fun _ => 0) (fun _ => 0) 1100 c2Store
        "1.2.3.4").1 =
      .ok (create_response_from_ip_info (emptyIpInfo "1.2.3.4") (some 1100)) ∧
    (create_response_from_ip_info (emptyIpInfo "1.2.3.4") (some 1100)).cached =
      some 1100 ∧
    (some 1100 : Option Nat) ≠ some 1000 := by
  refine ⟨by decide, ?_, by decide, by decide⟩
  decide

theorem claim_C2_witness :
    get_ip_info failProviders noReader (fun _ => 0) (fun _ => 0) 1100 c2Store
        "1.2.3.4" =
      (.ok (create_response_from_ip_info (emptyIpInfo "1.2.3.4") (some 1100)),
        c2Store, [ProviderCall.cacheGet "1.2.3.4"]) :=
  claim_C2_cache_hit_tagged_with_lookup_time failProviders noReader
    (fun _ => 0) (fun _ => 0) 1100 c2Store "1.2.3.4" (emptyIpInfo "1.2.3.4")
    (by decide)

/-- C1 (amended): on a reserved input the primary lookup yields the
canned record (country/organization are the reserved marker, geo fields
empty) and the response carries exactly those fields; but the cache is
consulted before the reserved classification, the enrichment providers
are still invoked (the canned record lacks their fields), and the merged
record is written back to the cache. -/
theorem claim_C1_reserved_canned_record (P : Providers) (reader : MaxmindReader)
    (sizeK : String → Nat) (sizeV : IpInfo → Nat) (now : Nat)
    (cache : KvStore String IpInfo) (ip : String)
    (hres : is_reserved_ip ip = true) (hmiss : cache.get ip now = none) :
    reader.lookup ip = .ok (reservedIpInfo ip) ∧
    ∃ r rpki_calls,
      (get_ip_info P reader sizeK sizeV now cache ip).1 = .ok r ∧
      r.info = { ip := ip, ip_range := none, country := some "保留地址",
                 city := none, asn := none, organization := some "保留地址" } ∧
      r.cached = none ∧
      (get_ip_info P reader sizeK sizeV now cache ip).2.2 =
        [ProviderCall.cacheGet ip, ProviderCall.whois ip, ProviderCall.bgpTools ip,
          ProviderCall.bgpApi ip] ++ rpki_calls ++ [ProviderCall.cacheSet ip] := by
  have hlk : reader.lookup ip = .ok (reservedIpInfo ip) := by
    unfold MaxmindReader.lookup
    rw [if_pos hres]
  refine ⟨hlk, ?_⟩
  obtain ⟨g1, g2, g3, g4, g5, g6⟩ := enriched_info_geo_fields P ip (reservedIpInfo ip)
  obtain ⟨rc, hcalls⟩ := enriched_info_calls_shape P ip (reservedIpInfo ip) rfl rfl rfl
  refine ⟨create_response_from_ip_info (enriched_info P ip (reservedIpInfo ip)).1 none,
    rc, ?_, ?_, rfl, ?_⟩
  · simp only [get_ip_info, hmiss, hlk]
  · simp only [create_response_from_ip_info]
    rw [g1, g2, g3, g4, g5, g6]
    simp [reservedIpInfo]
  · simp only [get_ip_info, hmiss, hlk, hcalls]
    simp

/-- The WHOIS record returned by the C1 scenario provider. -/
def c1Whois : WhoisInfo :=
  ⟨none, some "LOOPNET", none, none, none, none, none, none, "raw"⟩

/-- Providers for the C1 scenario: WHOIS succeeds, the rest fail. -/
def c1Providers : Providers :=
  ⟨fun _ => .ok c1Whois, fun _ => .error "down", fun _ => .error "down",
   fun _ _ => .error "down"⟩

/-- C1 counterexample: for the reserved input `127.0.0.1` the handler
reads the cache first, invokes the WHOIS/BGP providers, attaches the
WHOIS result to the reserved record, and writes the record to the cache —
contradicting "no enrichment-provider calls and no cache interaction". -/
theorem claim_C1_counterexample :
    is_reserved_ip "127.0.0.1" = true ∧
    (get_ip_info c1Providers noReader (fun _ => 0) (fun _ => 0) 1000 KvStore.new
        "127.0.0.1").2.2 =
      [ProviderCall.cacheGet "127.0.0.1", ProviderCall.whois "127.0.0.1",
        ProviderCall.bgpTools "127.0.0.1", ProviderCall.bgpApi "127.0.0.1",
        ProviderCall.cacheSet "127.0.0.1"] ∧
    (get_ip_info c1Providers noReader (fun _ => 0) (fun _ => 0) 1000 KvStore.new
        "127.0.0.1").2.1.len = 1 ∧
    (get_ip_info c1Providers noReader (fun _ => 0) (fun _ => 0) 1000 KvStore.new
        "127.0.0.1").1 =
      .ok (create_response_from_ip_info
        { reservedIpInfo "127.0.0.1" with whois_info := some c1Whois } none) ∧
    (create_response_from_ip_info
        { reservedIpInfo "127.0.0.1" with whois_info := some c1Whois } none).whois_info
      ≠ none := by
  refine ⟨by decide, by decide, by decide, by decide, by decide⟩

theorem claim_C1_witness :
    noReader.lookup "127.0.0.1" = .ok (reservedIpInfo "127.0.0.1") :=
  (claim_C1_reserved_canned_record c1Providers noReader (fun _ => 0) (fun _ => 0)
    1000 KvStore.new "127.0.0.1" (by decide) (by decide)).1

/-- C7: once the primary lookup has succeeded the request succeeds; a
request fails exactly when the cache misses and the primary lookup fails;
a WHOIS / bgp.tools failure leaves the corresponding response field
absent; a BGP REST failure leaves the RPKI list empty; and the response
value does not depend on the cache-write size accounting, so a failed
cache write cannot change it. -/
theorem claim_C7_only_primary_failures_surface (P : Providers)
    (reader : MaxmindReader) (sizeK : String → Nat) (sizeV : IpInfo → Nat)
    (now : Nat) (cache : KvStore String IpInfo) (ip : String) :
    (∀ info, reader.lookup ip = .ok info →
      ((get_ip_info P reader sizeK sizeV now cache ip).1).isOk = true) ∧
    (∀ e, (get_ip_info P reader sizeK sizeV now cache ip).1 = .badRequest e ↔
      (cache.get ip now = none ∧ reader.lookup ip = .error e.message ∧
        e.status = "error")) ∧
    (∀ info err, cache.get ip now = none → reader.lookup ip = .ok info →
      P.whois ip = .error err →
      ∃ r, (get_ip_info P reader sizeK sizeV now cache ip).1 = .ok r ∧
        r.whois_info = none) ∧
    (∀ info err, cache.get ip now = none → reader.lookup ip = .ok info →
      P.bgp_tools ip = .error err →
      ∃ r, (get_ip_info P reader sizeK sizeV now cache ip).1 = .ok r ∧
        r.bgp_info = none) ∧
    (∀ info err, cache.get ip now = none → reader.lookup ip = .ok info →
      P.bgp_api ip = .error err →
      ∃ r, (get_ip_info P reader sizeK sizeV now cache ip).1 = .ok r ∧
        r.rpki_info_list = []) ∧
    (∀ sizeK' sizeV', (get_ip_info P reader sizeK sizeV now cache ip).1 =
      (get_ip_info P reader sizeK' sizeV' now cache ip).1) := by
  refine ⟨?_, ?_, ?_, ?_, ?_, ?_⟩
  · intro info hok
    cases hc : cache.get ip now with
    | some v => simp [get_ip_info, hc, HttpResult.isOk]
    | none => simp [get_ip_info, hc, hok, HttpResult.isOk]
  · intro e
    constructor
    · intro h
      cases hc : cache.get ip now with
      | some v => rw [claim_C2_cache_hit_tagged_with_lookup_time P reader sizeK sizeV
          now cache ip v hc] at h; cases h
      | none =>
        cases hlk : reader.lookup ip with
        | ok info => simp [get_ip_info, hc, hlk] at h
        | error msg =>
          simp only [get_ip_info, hc, hlk, HttpResult.badRequest.injEq] at h
          subst h
          exact ⟨rfl, rfl, rfl⟩
    · rintro ⟨hmiss, herr, hstat⟩
      obtain ⟨st, msg⟩ := e
      simp only at hstat herr
      subst hstat
      simp [get_ip_info, hmiss, herr]
  · intro info err hmiss hok hwho
    obtain ⟨w1, -, -, -⟩ := lookup_fresh_fields reader ip info hok
    refine ⟨create_response_from_ip_info (enriched_info P ip info).1 none, ?_, ?_⟩
    · simp only [get_ip_info, hmiss, hok]
    · have hw := enriched_info_whois P ip info w1
      simp only [create_response_from_ip_info, hw, hwho, Except.toOption]
  · intro info err hmiss hok hbgp
    obtain ⟨-, b1, -, -⟩ := lookup_fresh_fields reader ip info hok
    refine ⟨create_response_from_ip_info (enriched_info P ip info).1 none, ?_, ?_⟩
    · simp only [get_ip_info, hmiss, hok]
    · have hb := enriched_info_bgp P ip info b1
      simp only [create_response_from_ip_info, hb, hbgp, Except.toOption]
  · intro info err hmiss hok hapi
    obtain ⟨-, -, a1, r1⟩ := lookup_fresh_fields reader ip info hok
    refine ⟨create_response_from_ip_info (enriched_info P ip info).1 none, ?_, ?_⟩
    · simp only [get_ip_info, hmiss, hok]
    · have ha := enriched_info_bgp_api_fail P ip info a1 (by simp [hapi, Except.toOption])
      simp only [create_response_from_ip_info, ha.2, r1]
  · intro sizeK' sizeV'
    cases hc : cache.get ip now with
    | some v => simp [get_ip_info, hc]
    | none =>
      cases hlk : reader.lookup ip with
      | ok info => simp [get_ip_info, hc, hlk]
      | error msg => simp [get_ip_info, hc, hlk]

theorem claim_C7_witness :
    ((get_ip_info failProviders noReader (fun _ => 0) (fun _ => 0) 5 KvStore.new
        "8.8.8.8").1).isOk = true :=
  (claim_C7_only_primary_failures_surface failProviders noReader (fun _ => 0)
    (fun _ => 0) 5 KvStore.new "8.8.8.8").1 (emptyIpInfo "8.8.8.8") (by decide)

/-- C9 (amended): when the BGP REST provider succeeds and its result has
a metadata entry carrying origin ASNs, the RPKI provider is queried once
per origin ASN of the first such entry, and the resulting list is exactly
the successful results in the order of the origin-ASN list (the input
order of `join_all`), failures omitted; without such an entry no RPKI
query runs. -/
theorem claim_C9_rpki_successes_in_input_order (P : Providers)
    (reader : MaxmindReader) (sizeK : String → Nat) (sizeV : IpInfo → Nat)
    (now : Nat) (cache : KvStore String IpInfo) (ip : String) (info : IpInfo)
    (b : BgpApiResult) (m : BgpApiMeta) (asns : List String)
    (hmiss : cache.get ip now = none) (hok : reader.lookup ip = .ok info)
    (hapi : P.bgp_api ip = .ok b)
    (hfind : b.meta.find? (fun mm => mm.origin_asns.isSome) = some m)
    (hasns : m.origin_asns = some asns) :
    ∃ r, (get_ip_info P reader sizeK sizeV now cache ip).1 = .ok r ∧
      r.rpki_info_list =
        (asns.map (fun a => (P.rpki b.prefix_ a).toOption)).filterMap id ∧
      (get_ip_info P reader sizeK sizeV now cache ip).2.2 =
        [ProviderCall.cacheGet ip, ProviderCall.whois ip, ProviderCall.bgpTools ip,
          ProviderCall.bgpApi ip] ++
          asns.map (fun a => ProviderCall.rpki b.prefix_ a) ++
          [ProviderCall.cacheSet ip] := by
  obtain ⟨w1, b1, a1, -⟩ := lookup_fresh_fields reader ip info hok
  obtain ⟨hr, hcalls⟩ := enriched_info_rpki P ip info b m asns w1 b1 a1 hapi hfind hasns
  refine ⟨create_response_from_ip_info (enriched_info P ip info).1 none, ?_, ?_, ?_⟩
  · simp only [get_ip_info, hmiss, hok]
  · simp only [create_response_from_ip_info, hr]
  · simp only [get_ip_info, hmiss, hok, hcalls]
    simp

/-- The BGP REST result of the C9 scenario: one prefix with a single
metadata entry carrying two origin ASNs. -/
def c9B : BgpApiResult := ⟨"9.9.9.0/24", [⟨none, none, some ["AS1", "AS2"], none⟩]⟩

/-- The RPKI validity record the C9 scenario provider returns for an ASN. -/
def c9V (a : String) : RpkiValidity :=
  ⟨a, "9.9.9.0/24", if a = "AS1" then "valid" else "invalid", none, none⟩

/-- Providers for the C9 scenario: the BGP REST and RPKI providers
succeed, the others fail. -/
def c9Providers : Providers :=
  ⟨fun _ => .error "down", fun _ => .error "down", fun _ => .ok c9B,
   fun _ a => .ok (c9V a)⟩

/-- C9 counterexample: with a completion order in which the second RPKI
query finishes first, the list the claim predicts (successes in
completion order) differs from what the handler returns — `join_all`
yields results indexed by input position, so the list is in ASN order. -/
theorem claim_C9_counterexample :
    (match (get_ip_info c9Providers noReader (fun _ => 0) (fun _ => 0) 5
        KvStore.new "9.9.9.9").1 with
      | .ok r => r.rpki_info_list
      | .badRequest _ => []) = [c9V "AS1", c9V "AS2"] ∧
    completion_order_results
        (["AS1", "AS2"].map (fun a => (c9Providers.rpki "9.9.9.0/24" a).toOption))
        [1, 0] = [c9V "AS2", c9V "AS1"] ∧
    [c9V "AS1", c9V "AS2"] ≠ [c9V "AS2", c9V "AS1"] := by
  refine ⟨by decide, by decide, by decide⟩

theorem claim_C9_witness :
    ∃ r, (get_ip_info c9Providers noReader (fun _ => 0) (fun _ => 0) 5
        KvStore.new "9.9.9.9").1 = .ok r ∧
      r.rpki_info_list =
        (["AS1", "AS2"].map
          (fun a => (c9Providers.rpki c9B.prefix_ a).toOption)).filterMap id ∧
      (get_ip_info c9Providers noReader (fun _ => 0) (fun _ => 0) 5
          KvStore.new "9.9.9.9").2.2 =
        [ProviderCall.cacheGet "9.9.9.9", ProviderCall.whois "9.9.9.9",
          ProviderCall.bgpTools "9.9.9.9", ProviderCall.bgpApi "9.9.9.9"] ++
          ["AS1", "AS2"].map (fun a => ProviderCall.rpki c9B.prefix_ a) ++
          [ProviderCall.cacheSet "9.9.9.9"] :=
  claim_C9_rpki_successes_in_input_order c9Providers noReader (fun _ => 0)
    (fun _ => 0) 5 KvStore.new "9.9.9.9" (emptyIpInfo "9.9.9.9") c9B
    ⟨none, none, some ["AS1", "AS2"], none⟩ ["AS1", "AS2"]
    (by decide) (by decide) (by decide) (by decide) (by decide)

/-- C8 (amended): for a prefix-form input the record keeps the original
CIDR string as identifier and reports the network/broadcast boundary as
the range, but the geo lookup uses the CIDR's address exactly as written
(`IpNet::addr`, host bits kept — not necessarily the network's first
address), and the enrichment providers are invoked with the original
input string itself, not with any address derived from it. -/
theorem claim_C8_cidr_addr_as_given (reader : MaxmindReader) (s : String)
    (net : IpNet) (hparse : parse_ip_net s = some net) :
    reader.lookup_cidr s =
      (reader.lookup_ip (ipAddrToString net.addr)).map
        (fun info =>
          { info with
            ip := s,
            ip_range := some (ipAddrToString net.network ++ " - " ++
              ipAddrToString net.broadcast) }) ∧
    (∀ (P : Providers) (sizeK : String → Nat) (sizeV : IpInfo → Nat)
        (now : Nat) (cache : KvStore String IpInfo) (info : IpInfo),
      cache.get s now = none → reader.lookup s = .ok info →
      ∃ rpki_calls,
        (get_ip_info P reader sizeK sizeV now cache s).2.2 =
          [ProviderCall.cacheGet s, ProviderCall.whois s, ProviderCall.bgpTools s,
            ProviderCall.bgpApi s] ++ rpki_calls ++ [ProviderCall.cacheSet s]) := by
  constructor
  · unfold MaxmindReader.lookup_cidr
    rw [hparse]
    cases hip : reader.lookup_ip (ipAddrToString net.addr) with
    | error e => simp [hip, Except.map, bind, Except.bind]
    | ok base => simp [hip, Except.map, bind, Except.bind]
  · intro P sizeK sizeV now cache info hmiss hok
    obtain ⟨w1, b1, a1, -⟩ := lookup_fresh_fields reader s info hok
    obtain ⟨rc, hcalls⟩ := enriched_info_calls_shape P s info w1 b1 a1
    refine ⟨rc, ?_⟩
    simp only [get_ip_info, hmiss, hok, hcalls]
    simp

/-- The country oracle of the C8 scenario: distinguishes the CIDR's
address as written from the network's first address. -/
def c8Country (name : String) : Except Unit (Option CountryRecord) :=
  .ok (some ⟨some ⟨none, some name⟩⟩)

/-- Reader for the C8 scenario: only a country database, whose answer
depends on which address is looked up. -/
def c8Reader : MaxmindReader :=
  ⟨none, none,
   some (fun a =>
     if a = .v4 10 1 2 3 then c8Country "addr-as-given"
     else c8Country "network-first-address")⟩

/-- C8 counterexample: for the input `10.1.2.3/8` the range string is the
network/broadcast boundary and the identifier is the CIDR, but the geo
lookup used `10.1.2.3` (the address as written), not the network's first
address `10.0.0.0` — the two addresses give different geo answers — and
the enrichment providers were called with the full string `10.1.2.3/8`,
never with `10.0.0.0`. -/
theorem claim_C8_counterexample :
    c8Reader.lookup "10.1.2.3/8" =
      .ok { ip := "10.1.2.3/8", ip_range := some "10.0.0.0 - 10.255.255.255",
            country := some "addr-as-given", city := none, asn := none,
            organization := none, whois_info := none, bgp_info := none,
            bgp_api_info := none, rpki_info_list := [] } ∧
    c8Reader.lookup_ip "10.0.0.0" =
      .ok { emptyIpInfo "10.0.0.0" with country := some "network-first-address" } ∧
    (some "addr-as-given" : Option String) ≠ some "network-first-address" ∧
    (get_ip_info failProviders c8Reader (fun _ => 0) (fun _ => 0) 5 KvStore.new
        "10.1.2.3/8").2.2 =
      [ProviderCall.cacheGet "10.1.2.3/8", ProviderCall.whois "10.1.2.3/8",
        ProviderCall.bgpTools "10.1.2.3/8", ProviderCall.bgpApi "10.1.2.3/8",
        ProviderCall.cacheSet "10.1.2.3/8"] ∧
    ProviderCall.whois "10.0.0.0" ∉
      (get_ip_info failProviders c8Reader (fun _ => 0) (fun _ => 0) 5 KvStore.new
        "10.1.2.3/8").2.2 := by
  refine ⟨by decide, by decide, by decide, by decide, by decide⟩

theorem claim_C8_witness :
    c8Reader.lookup_cidr "10.1.2.3/8" =
      (c8Reader.lookup_ip
          (ipAddrToString (IpNet.mk (IpAddr.v4 10 1 2 3) 8).addr)).map
        (fun info =>
          { info with
            ip := "10.1.2.3/8",
            ip_range := some
              (ipAddrToString (IpNet.mk (IpAddr.v4 10 1 2 3) 8).network ++ " - " ++
                ipAddrToString (IpNet.mk (IpAddr.v4 10 1 2 3) 8).broadcast) }) :=
  (claim_C8_cidr_addr_as_given c8Reader "10.1.2.3/8" ⟨.v4 10 1 2 3, 8⟩ (by decide)).1

/-! ## Parser lemmas: the address grammar never consumes a slash -/

lemma slash_dropWhile (p : Char → Bool) (cs : List Char) (hp : p '/' = false)
    (h : '/' ∈ cs) : '/' ∈ cs.dropWhile p := by
  rcases List.mem_append.mp
      ((List.takeWhile_append_dropWhile (p := p) (l := cs)).symm ▸ h) with h1 | h2
  · have := List.mem_takeWhile_imp h1
    rw [hp] at this
    cases this
  · exact h2

lemma read_ipv4_octet_rest {cs : List Char} {v : Nat} {rest : List Char}
    (h : read_ipv4_octet cs = some (v, rest)) :
    rest = cs.dropWhile Char.isDigit := by
  unfold read_ipv4_octet at h
  repeat' split at h
  all_goals simp_all

lemma slash_read_ipv4_octet {cs : List Char} {v : Nat} {rest : List Char}
    (h : read_ipv4_octet cs = some (v, rest)) (hs : '/' ∈ cs) : '/' ∈ rest := by
  rw [read_ipv4_octet_rest h]
  exact slash_dropWhile _ _ (by decide) hs

lemma mem_of_mem_cons_ne {x y : Char} {t : List Char} (hs : x ∈ y :: t)
    (hne : x ≠ y) : x ∈ t := by
  rcases List.mem_cons.mp hs with h1 | h2
  · exact absurd h1 hne
  · exact h2

lemma expectChar_cons {c : Char} {cs rest : List Char}
    (h : expectChar c cs = some rest) : cs = c :: rest := by
  unfold expectChar at h
  split at h
  next x t =>
    split at h
    next hx =>
      obtain rfl := Option.some.inj h
      rw [hx]
    next => cases h
  next => cases h

lemma slash_expectChar {c : Char} {cs rest : List Char}
    (h : expectChar c cs = some rest) (hc : c ≠ '/') (hs : '/' ∈ cs) :
    '/' ∈ rest := by
  rw [expectChar_cons h] at hs
  exact mem_of_mem_cons_ne hs (fun hEq => hc hEq.symm)

lemma slash_read_ipv4_addr {cs : List Char} {q : Nat × Nat × Nat × Nat}
    {rest : List Char} (h : read_ipv4_addr cs = some (q, rest))
    (hs : '/' ∈ cs) : '/' ∈ rest := by
  unfold read_ipv4_addr at h
  split at h
  · cases h
  next a r1 h1 =>
    split at h
    · cases h
    next r2 h2 =>
      split at h
      · cases h
      next b r3 h3 =>
        split at h
        · cases h
        next r4 h4 =>
          split at h
          · cases h
          next c r5 h5 =>
            split at h
            · cases h
            next r6 h6 =>
              split at h
              · cases h
              next d r7 h7 =>
                cases h
                exact slash_read_ipv4_octet h7 (slash_expectChar h6 (by decide)
                  (slash_read_ipv4_octet h5 (slash_expectChar h4 (by decide)
                    (slash_read_ipv4_octet h3 (slash_expectChar h2 (by decide)
                      (slash_read_ipv4_octet h1 hs))))))

lemma read_ipv6_group_rest {cs : List Char} {v : Nat} {rest : List Char}
    (h : read_ipv6_group cs = some (v, rest)) :
    rest = cs.dropWhile isHexDigitChar := by
  unfold read_ipv6_group at h
  repeat' split at h
  all_goals simp_all

lemma slash_read_ipv6_group {cs : List Char} {v : Nat} {rest : List Char}
    (h : read_ipv6_group cs = some (v, rest)) (hs : '/' ∈ cs) : '/' ∈ rest := by
  rw [read_ipv6_group_rest h]
  exact slash_dropWhile _ _ (by decide) hs

lemma slash_read_separator {A : Type} {first : Bool}
    {inner : List Char → Option (A × List Char)} {cs rest : List Char} {v : A}
    (h : read_separator first inner cs = some (v, rest))
    (hinner : ∀ cs' v' r', inner cs' = some (v', r') → '/' ∈ cs' → '/' ∈ r')
    (hs : '/' ∈ cs) : '/' ∈ rest := by
  unfold read_separator at h
  split at h
  · exact hinner _ _ _ h hs
  · split at h
    next rest' =>
      exact hinner _ _ _ h (mem_of_mem_cons_ne hs (by decide))
    next => cases h

lemma slash_read_groups :
    ∀ (rem : Nat) (first : Bool) (cs : List Char), '/' ∈ cs →
      '/' ∈ (read_groups rem first cs).2.1 := by
  intro rem
  induction rem with
  | zero =>
    intro first cs hs
    simpa [read_groups] using hs
  | succ rem ih =>
    intro first cs hs
    unfold read_groups
    split
    next a b c d rest heq =>
      split at heq
      · exact slash_read_separator heq
          (fun _ _ _ h hx => slash_read_ipv4_addr h hx) hs
      · cases heq
    next heq =>
      split
      next g rest heq2 =>
        exact ih false rest (slash_read_separator heq2
          (fun _ _ _ h hx => slash_read_ipv6_group h hx) hs)
      next heq2 => exact hs

lemma slash_read_ipv6_addr {cs : List Char} {segs : List Nat} {rest : List Char}
    (h : read_ipv6_addr cs = some (segs, rest)) (hs : '/' ∈ cs) : '/' ∈ rest := by
  have hhead := slash_read_groups 8 true cs hs
  simp only [read_ipv6_addr] at h
  split at h
  · cases h
    exact hhead
  · split at h
    · cases h
    · split at h
      next rest2 heq =>
        cases h
        refine slash_read_groups _ true rest2 ?_
        rw [heq] at hhead
        exact mem_of_mem_cons_ne (mem_of_mem_cons_ne hhead (by decide)) (by decide)
      next => cases h

lemma slash_read_ip_addr {cs : List Char} {a : IpAddr} {rest : List Char}
    (h : read_ip_addr cs = some (a, rest)) (hs : '/' ∈ cs) : '/' ∈ rest := by
  unfold read_ip_addr at h
  split at h
  next q rest' heq =>
    cases h
    exact slash_read_ipv4_addr heq hs
  next heq =>
    split at h
    next segs rest' heq2 =>
      cases h
      exact slash_read_ipv6_addr heq2 hs
    next => cases h

lemma parse_ip_addr_slash_none (s : String) (hs : '/' ∈ s.toList) :
    parse_ip_addr s = none := by
  unfold parse_ip_addr
  split
  next a heq =>
    have := slash_read_ip_addr heq hs
    cases this
  next => rfl

/-- C10: any input containing a `/` does not parse as a plain IP address,
so the reserved classification returns false for it and `lookup` takes
the full CIDR path instead of the reserved short-circuit; likewise any
string that does not parse as a plain address is classified not
reserved. -/
theorem claim_C10_slash_never_reserved (s : String) (reader : MaxmindReader) :
    ('/' ∈ s.toList →
      is_reserved_ip s = false ∧ reader.lookup s = reader.lookup_cidr s) ∧
    (parse_ip_addr s = none → is_reserved_ip s = false) := by
  have hbase : parse_ip_addr s = none → is_reserved_ip s = false := by
    intro h
    unfold is_reserved_ip
    rw [h]
  constructor
  · intro hs
    have hr := hbase (parse_ip_addr_slash_none s hs)
    refine ⟨hr, ?_⟩
    unfold MaxmindReader.lookup
    rw [if_neg (by simp [hr]), if_pos hs]
  · exact hbase

theorem claim_C10_witness :
    is_reserved_ip "10.0.0.0/8" = false ∧
    noReader.lookup "10.0.0.0/8" = noReader.lookup_cidr "10.0.0.0/8" :=
  (claim_C10_slash_never_reserved "10.0.0.0/8" noReader).1 (by decide)
